import Mathlib

/-!
Verification of the mirror-status utilities (`mirrors/utils.py`).

This file gives a shallow embedding of the mirror-status aggregation code:
the database tables (`Mirror`, `MirrorProtocol`, `MirrorUrl`, `MirrorLog`)
become Lean structures over lists, timestamps and durations become rationals
(seconds), SQL `NULL` becomes `Option`, and Python runtime errors become an
explicit `Except` error type.  The functions `annotate_url`, `url_delays`,
`get_mirror_statuses`, `get_mirror_errors` and `get_mirror_url_for_download`
are translated statement by statement; theorems about the observable claims
follow at the end of the file.
-/

/-- Python runtime errors that the translated code can raise.  `nameError`
stands for the `UnboundLocalError` (a subclass of `NameError`) raised when a
local variable is read before assignment. -/
inductive PyErr where
  | typeError
  | zeroDivisionError
  | nameError
  | doesNotExist
  deriving Repr, DecidableEq

/-- Row of `mirrors_mirror`: a logical mirror site. -/
structure Mirror where
  id : Nat
  active : Bool
  public : Bool
  isos : Bool
  tier : Nat
  deriving Repr, DecidableEq

/-- Row of `mirrors_mirrorprotocol`; one protocol is flagged `default`. -/
structure MirrorProtocol where
  id : Nat
  protocol : String
  default : Bool
  deriving Repr, DecidableEq

/-- Row of `mirrors_mirrorurl`: one endpoint of a mirror. -/
structure MirrorUrl where
  id : Nat
  url : String
  mirror_id : Nat
  protocol_id : Nat
  country : String
  deriving Repr, DecidableEq

/-- Row of `mirrors_mirrorlog`: one health-check observation.  Timestamps
(`check_time`, `last_sync`) are rationals (seconds on an absolute axis);
`duration` is a rational number of seconds; nullable columns are `Option`. -/
structure MirrorLog where
  id : Nat
  url_id : Nat
  check_time : ℚ
  last_sync : Option ℚ
  duration : Option ℚ
  is_success : Bool
  error : String
  deriving Repr, DecidableEq

/-- The relational store the queries run against. -/
structure DB where
  mirrors : List Mirror
  protocols : List MirrorProtocol
  urls : List MirrorUrl
  logs : List MirrorLog
  deriving Repr, DecidableEq

/-- Python truthiness of an optional integer argument (`if mirror_id:`):
`None` and `0` are falsy. -/
def pyTruthy : Option Nat → Bool
  | none => false
  | some m => m != 0

/-- SQL `MAX` over a list of rationals (`none` on the empty set). -/
def maxQ? : List ℚ → Option ℚ
  | [] => none
  | x :: xs => some (xs.foldl max x)

/-- SQL `MIN` over a list of rationals (`none` on the empty set). -/
def minQ? : List ℚ → Option ℚ
  | [] => none
  | x :: xs => some (xs.foldl min x)

/-- Run a fallible computation over a list, stopping at the first error
(the semantics of a Python `for` loop whose body may raise). -/
def mapExcept (f : α → Except ε β) : List α → Except ε (List β)
  | [] => .ok []
  | x :: xs =>
    match f x with
    | .error e => .error e
    | .ok y =>
      match mapExcept f xs with
      | .error e => .error e
      | .ok ys => .ok (y :: ys)

/-- `delay.days * 24.0 + delay.seconds / 3600.0` from `annotate_url`: a
Python `timedelta` of `d` seconds is normalized to `days` (floor) plus a
whole number of `seconds` in `[0, 86400)`; the `microseconds` component is
dropped by the source expression. -/
def pyTimedeltaHours (d : ℚ) : ℚ :=
  let days : Int := (d / 86400).floor
  let secs : Int := (d - 86400 * (days : ℚ)).floor
  (days : ℚ) * 24 + (secs : ℚ) / 3600

/-- The scoring expression of `annotate_url`: divide by `completion_pct`
when it is positive, otherwise by the arbitrary small constant `0.005`. -/
def score_formula (hours davg dsd cp : ℚ) : ℚ :=
  (hours + davg + dsd) / (if 0 < cp then cp else 1 / 200)

/-- Join test `url__mirror__active=True, url__mirror__public=True`: the
URL's mirror row exists and is both active and public. -/
def mirror_ok (db : DB) (u : MirrorUrl) : Bool :=
  db.mirrors.any fun m => m.id == u.mirror_id && m.active && m.public

/-- `logs__check_time__gte=cutoff_time` over the whole log table. -/
def window_logs (db : DB) (ct : ℚ) : List MirrorLog :=
  db.logs.filter fun l => decide (ct ≤ l.check_time)

/-- The log rows joined to one URL by `logs__check_time__gte=cutoff_time`:
the rows the per-URL aggregates of `get_mirror_statuses` range over. -/
def window_logs_of (db : DB) (ct : ℚ) (u : MirrorUrl) : List MirrorLog :=
  db.logs.filter fun l => l.url_id == u.id && decide (ct ≤ l.check_time)

/-- The rows of the `url_delays` SQL for a given `url_id`:
`is_success = TRUE AND check_time >= cutoff AND last_sync IS NOT NULL`,
grouped by `url_id`; with a mirror id the query joins `mirrors_mirrorurl`
and adds `mirror_id = %s` (the `is None` test, not truthiness). -/
def delay_logs (db : DB) (ct : ℚ) (mid : Option Nat) (uid : Nat) : List MirrorLog :=
  let base := db.logs.filter fun l =>
    l.is_success && decide (ct ≤ l.check_time) && l.last_sync.isSome && l.url_id == uid
  match mid with
  | none => base
  | some m => base.filter fun l =>
      db.urls.any fun u => u.id == l.url_id && u.mirror_id == m

/-- `url_delays(cutoff_time, mirror_id)` viewed through the dictionary
lookup `delays.get(url.id, None)`: the SQL `AVG(check_time - last_sync)`
for the URL's group, or `None` when the group is empty. -/
def url_delays (db : DB) (ct : ℚ) (mid : Option Nat) (uid : Nat) : Option ℚ :=
  let ls := delay_logs db ct mid uid
  if ls.isEmpty then none
  else some (((ls.map fun l => l.check_time - l.last_sync.getD 0).sum) / (ls.length : ℚ))

/-- `annotate_url(url, delay)` reduced to its data flow: from the merged
aggregate attributes and the delay sample it computes
`(completion_pct, delay, score)`.  `float(success_count) / check_count`
raises `ZeroDivisionError` on a zero check count, and the score expression
raises `TypeError` when `duration_avg` or `duration_stddev` is `None`. -/
def annotate_url (check_count success_count : Nat) (davg dsd : Option ℚ)
    (delay : Option ℚ) : Except PyErr (ℚ × Option ℚ × Option ℚ) :=
  if check_count = 0 then .error .zeroDivisionError
  else
    let cp : ℚ := (success_count : ℚ) / (check_count : ℚ)
    match delay with
    | some d =>
      match davg, dsd with
      | some avg, some sd =>
        .ok (cp, some d, some (score_formula (pyTimedeltaHours d) avg sd cp))
      | _, _ => .error .typeError
    | none => .ok (cp, none, none)

/-- The attributes merged onto a `MirrorUrl` from the per-URL aggregate
query of `get_mirror_statuses` (plus the vendor-dependent stddev). -/
structure UrlStats where
  url : MirrorUrl
  check_count : Nat
  success_count : Nat
  last_sync : Option ℚ
  last_check : Option ℚ
  duration_avg : Option ℚ
  duration_stddev : Option ℚ
  deriving Repr, DecidableEq

/-- Per-URL aggregates: `check_count=Count('logs')`,
`success_count=Count('logs__duration')`, `last_sync=Max('logs__last_sync')`,
`last_check=Max('logs__check_time')`, `duration_avg=Avg('logs__duration')`,
and `duration_stddev=StdDev('logs__duration')` — the stddev aggregate is the
store's (`sdAgg`), replaced by a literal `0.0` on the `sqlite` vendor. -/
def url_stats (vendor : String) (sdAgg : List ℚ → Option ℚ) (db : DB) (ct : ℚ)
    (u : MirrorUrl) : UrlStats :=
  let wl := window_logs_of db ct u
  let durs := wl.filterMap fun l => l.duration
  { url := u
    check_count := wl.length
    success_count := durs.length
    last_sync := maxQ? (wl.filterMap fun l => l.last_sync)
    last_check := maxQ? (wl.map fun l => l.check_time)
    duration_avg := if durs.isEmpty then none else some (durs.sum / (durs.length : ℚ))
    duration_stddev := if vendor == "sqlite" then some 0 else sdAgg durs }

/-- A `MirrorUrl` as returned by `get_mirror_statuses`: the merged aggregate
attributes plus the fields set by `annotate_url`. -/
structure AnnotatedUrl extends UrlStats where
  completion_pct : ℚ
  delay : Option ℚ
  score : Option ℚ
  deriving Repr, DecidableEq

/-- The `annotate_url(url, delays.get(url.id, None))` call of the final loop
of `get_mirror_statuses`. -/
def annotate_stats (db : DB) (ct : ℚ) (mid : Option Nat) (s : UrlStats) :
    Except PyErr AnnotatedUrl :=
  match annotate_url s.check_count s.success_count s.duration_avg s.duration_stddev
      (url_delays db ct mid s.url.id) with
  | .error e => .error e
  | .ok (cp, dl, sc) =>
    .ok { toUrlStats := s, completion_pct := cp, delay := dl, score := sc }

/-- `order_by('mirror__id', 'url')`. -/
def urlLE (u v : MirrorUrl) : Prop :=
  u.mirror_id < v.mirror_id ∨ (u.mirror_id = v.mirror_id ∧ u.url ≤ v.url)

instance : DecidableRel urlLE := fun u v => by
  unfold urlLE; infer_instance

/-- `valid_urls`: URLs of active and public mirrors having at least one log
in the window, further filtered by `mirror_id` when that argument is truthy. -/
def valid_urls (db : DB) (ct : ℚ) (mid : Option Nat) : List MirrorUrl :=
  let base := db.urls.filter fun u =>
    mirror_ok db u && db.logs.any fun l => l.url_id == u.id && decide (ct ≤ l.check_time)
  if pyTruthy mid then base.filter fun u => u.mirror_id == mid.getD 0 else base

/-- The `urls` queryset of `get_mirror_statuses`, ordered by
`('mirror__id', 'url')`. -/
def status_urls (db : DB) (ct : ℚ) (mid : Option Nat) : List MirrorUrl :=
  List.insertionSort urlLE (valid_urls db ct mid)

/-- The ordered URLs with their merged aggregate attributes. -/
def stats_of (vendor : String) (sdAgg : List ℚ → Option ℚ) (db : DB) (ct : ℚ)
    (mid : Option Nat) : List UrlStats :=
  (status_urls db ct mid).map (url_stats vendor sdAgg db ct)

/-- The `check_info` queryset: every log in the window, filtered by
`url__mirror_id` when `mirror_id` is truthy. -/
def check_info_logs (db : DB) (ct : ℚ) (mid : Option Nat) : List MirrorLog :=
  db.logs.filter fun l => decide (ct ≤ l.check_time) &&
    (if pyTruthy mid then
       db.urls.any fun u => u.id == l.url_id && u.mirror_id == mid.getD 0
     else true)

/-- The `if urls:` block of `get_mirror_statuses`: computes the summary
triple `(last_check, num_checks, check_frequency)`.  Subtracting a
`timedelta` from a missing aggregate would raise `TypeError`. -/
def summary_triple (db : DB) (ct : ℚ) (mid : Option Nat) (stats : List UrlStats) :
    Except PyErr (Option ℚ × Nat × Option ℚ) :=
  if stats.isEmpty then .ok (none, 0, none)
  else if 1 < (stats.map fun s => s.check_count).foldr max 0 then
    match maxQ? ((check_info_logs db ct mid).map fun l => l.check_time),
          minQ? ((check_info_logs db ct mid).map fun l => l.check_time) with
    | some mx, some mn =>
      .ok (maxQ? (stats.filterMap fun s => s.last_check),
           (stats.map fun s => s.check_count).foldr max 0,
           some ((mx - mn) / ((((stats.map fun s => s.check_count).foldr max 0 : Nat) : ℚ) - 1)))
    | _, _ => .error .typeError
  else .ok (maxQ? (stats.filterMap fun s => s.last_check),
            (stats.map fun s => s.check_count).foldr max 0, none)

/-- The dictionary returned by `get_mirror_statuses`. -/
structure StatusReport where
  cutoff : ℚ
  last_check : Option ℚ
  num_checks : Nat
  check_frequency : Option ℚ
  urls : List AnnotatedUrl
  deriving Repr, DecidableEq

/-- `get_mirror_statuses(cutoff, mirror_id)` for a store with vendor string
`vendor` and stddev aggregate `sdAgg`. -/
def get_mirror_statuses (vendor : String) (sdAgg : List ℚ → Option ℚ) (db : DB)
    (now cutoff : ℚ) (mirror_id : Option Nat) : Except PyErr StatusReport :=
  match summary_triple db (now - cutoff) mirror_id
      (stats_of vendor sdAgg db (now - cutoff) mirror_id) with
  | .error e => .error e
  | .ok (lc, nc, freq) =>
    match mapExcept (annotate_stats db (now - cutoff) mirror_id)
        (stats_of vendor sdAgg db (now - cutoff) mirror_id) with
    | .error e => .error e
    | .ok annots =>
      .ok { cutoff := cutoff, last_check := lc, num_checks := nc,
            check_frequency := freq, urls := annots }

/-- Grouping key of `get_mirror_errors`:
`('url__url', 'url__country', 'url__protocol__protocol', 'url__mirror__tier', 'error')`. -/
structure ErrKey where
  url : String
  country : String
  protocol : String
  tier : Nat
  error : String
  deriving Repr, DecidableEq

/-- One aggregated row of `get_mirror_errors`. -/
structure ErrorRow where
  url : String
  country : String
  protocol : String
  tier : Nat
  error : String
  error_count : Nat
  last_occurred : ℚ
  deriving Repr, DecidableEq

/-- The grouping key carried by an aggregated row. -/
def rowKey (r : ErrorRow) : ErrKey :=
  ⟨r.url, r.country, r.protocol, r.tier, r.error⟩

/-- The joined values of one failed log row, when its URL resolves to an
active and public mirror (the inner joins of the `values(...)` query). -/
def logKey? (db : DB) (l : MirrorLog) : Option ErrKey := do
  let u ← db.urls.find? fun x => x.id == l.url_id
  let m ← db.mirrors.find? fun x => x.id == u.mirror_id
  let p ← db.protocols.find? fun x => x.id == u.protocol_id
  if m.active && m.public then
    some ⟨u.url, u.country, p.protocol, m.tier, l.error⟩
  else none

/-- The `(key, check_time)` pairs that the error aggregation groups:
failed checks in the window joined to active and public mirrors. -/
def err_entries (db : DB) (ct : ℚ) : List (ErrKey × ℚ) :=
  db.logs.filterMap fun l =>
    if !l.is_success && decide (ct ≤ l.check_time) then
      (logKey? db l).map fun k => (k, l.check_time)
    else none

/-- The distinct values of a list, keeping first occurrences (the set of
`GROUP BY` keys produced by the aggregation). -/
def dedup_first [DecidableEq α] : List α → List α
  | [] => []
  | x :: xs => x :: ((dedup_first xs).filter fun y => decide (y ≠ x))

/-- Largest element of a nonempty list of rationals (`0` as a dummy on `[]`). -/
def qmaxD : List ℚ → ℚ
  | [] => 0
  | x :: xs => xs.foldl max x

/-- One group's aggregated row: `error_count=Count('error')`,
`last_occurred=Max('check_time')`. -/
def mkErrRow (k : ErrKey) (grp : List (ErrKey × ℚ)) : ErrorRow :=
  ⟨k.url, k.country, k.protocol, k.tier, k.error, grp.length,
   qmaxD (grp.map fun e => e.2)⟩

/-- `order_by('-last_occurred', '-error_count')`. -/
def errGE (a b : ErrorRow) : Prop :=
  b.last_occurred < a.last_occurred ∨
    (a.last_occurred = b.last_occurred ∧ b.error_count ≤ a.error_count)

instance : DecidableRel errGE := fun a b => by
  unfold errGE; infer_instance

/-- `get_mirror_errors(cutoff, mirror_id)`.  A truthy `mirror_id` reaches
`urls = urls.filter(...)`, which reads the unbound local `urls` and raises
`UnboundLocalError` (a `NameError`). -/
def get_mirror_errors (db : DB) (now cutoff : ℚ) (mirror_id : Option Nat) :
    Except PyErr (List ErrorRow) :=
  if pyTruthy mirror_id then .error .nameError
  else
    let entries := err_entries db (now - cutoff)
    let keys := dedup_first (entries.map fun e => e.1)
    .ok (List.insertionSort errGE
      (keys.map fun k => mkErrRow k (entries.filter fun e => decide (e.1 = k))))

/-- Join test of the best-log query: the log's URL exists, belongs to a
public and active mirror, and uses the default protocol. -/
def pub_active_default (db : DB) (uid : Nat) : Bool :=
  db.urls.any fun u => u.id == uid && mirror_ok db u &&
    db.protocols.any fun p => p.id == u.protocol_id && p.default

/-- The `best_logs` filter of `get_mirror_url_for_download`:
`is_success=True, check_time__gte=min_check_time, last_sync__gte=min_sync_time`
joined to public, active, default-protocol URLs (a `NULL` `last_sync` fails
the comparison). -/
def dl_qualifies (db : DB) (minc mins : ℚ) (l : MirrorLog) : Bool :=
  l.is_success && decide (minc ≤ l.check_time) &&
    (match l.last_sync with
     | some s => decide (mins ≤ s)
     | none => false) &&
    pub_active_default db l.url_id

/-- `order_by('duration')` with SQL `NULL`s last. -/
def durLE (a b : MirrorLog) : Prop :=
  match a.duration, b.duration with
  | some x, some y => x ≤ y
  | some _, none => True
  | none, some _ => False
  | none, none => True

instance : DecidableRel durLE := fun a b => by
  unfold durLE
  match a.duration, b.duration with
  | some _, some _ => infer_instance
  | some _, none => infer_instance
  | none, some _ => infer_instance
  | none, none => infer_instance

/-- The fallback queryset `mirror_urls` of `get_mirror_url_for_download`:
default-protocol URLs of public and active mirrors. -/
def dl_candidate_urls (db : DB) : List MirrorUrl :=
  db.urls.filter fun u => mirror_ok db u &&
    db.protocols.any fun p => p.id == u.protocol_id && p.default

/-- The no-status fallback: first a country-agnostic URL, then any
candidate URL, then `None`. -/
def dl_fallback (db : DB) : Except PyErr (Option MirrorUrl) :=
  match (dl_candidate_urls db).filter fun u => u.country == "" with
  | u :: _ => .ok (some u)
  | [] =>
    match dl_candidate_urls db with
    | u :: _ => .ok (some u)
    | [] => .ok none

/-- `get_mirror_url_for_download(cutoff)`.  With a nonempty window whose
logs all lack `last_sync`, `status_data['last_sync__max']` is `None` and
subtracting `timedelta(minutes=20)` from it raises `TypeError`. -/
def get_mirror_url_for_download (db : DB) (now cutoff : ℚ) :
    Except PyErr (Option MirrorUrl) :=
  match maxQ? ((window_logs db (now - cutoff)).map fun l => l.check_time) with
  | none => dl_fallback db
  | some t =>
    match maxQ? ((window_logs db (now - cutoff)).filterMap fun l => l.last_sync) with
    | none => .error .typeError
    | some s =>
      match List.insertionSort durLE
          (db.logs.filter (dl_qualifies db (t - 300) (s - 1200))) with
      | [] => dl_fallback db
      | b :: _ =>
        match db.urls.find? fun u => u.id == b.url_id with
        | some u => .ok (some u)
        | none => .error .doesNotExist

/-! ### Helper lemmas -/

theorem mapExcept_ok_mem {f : α → Except ε β} :
    ∀ {l : List α} {ys : List β}, mapExcept f l = .ok ys →
      ∀ y ∈ ys, ∃ x ∈ l, f x = .ok y := by
  intro l
  induction l with
  | nil =>
    intro ys h y hy
    simp [mapExcept] at h
    subst h
    simp at hy
  | cons x xs ih =>
    intro ys h y hy
    unfold mapExcept at h
    cases hx : f x with
    | error e => rw [hx] at h; simp at h
    | ok z =>
      rw [hx] at h
      cases hxs : mapExcept f xs with
      | error e => rw [hxs] at h; simp at h
      | ok zs =>
        rw [hxs] at h
        simp at h
        subst h
        rcases List.mem_cons.mp hy with h1 | h1
        · exact ⟨x, List.mem_cons_self x xs, h1 ▸ hx⟩
        · obtain ⟨w, hw, hfw⟩ := ih hxs y h1
          exact ⟨w, List.mem_cons_of_mem x hw, hfw⟩

theorem mapExcept_ok_forall₂ {f : α → Except ε β} :
    ∀ {l : List α} {ys : List β}, mapExcept f l = .ok ys →
      List.Forall₂ (fun x y => f x = .ok y) l ys := by
  intro l
  induction l with
  | nil =>
    intro ys h
    simp [mapExcept] at h
    subst h
    exact List.Forall₂.nil
  | cons x xs ih =>
    intro ys h
    unfold mapExcept at h
    cases hx : f x with
    | error e => rw [hx] at h; simp at h
    | ok z =>
      rw [hx] at h
      cases hxs : mapExcept f xs with
      | error e => rw [hxs] at h; simp at h
      | ok zs =>
        rw [hxs] at h
        simp at h
        subst h
        exact List.Forall₂.cons hx (ih hxs)

theorem le_foldl_max_self (a : ℚ) : ∀ l : List ℚ, a ≤ l.foldl max a := by
  intro l
  induction l generalizing a with
  | nil => exact le_refl a
  | cons x xs ih => exact le_trans (le_max_left a x) (ih (max a x))

theorem le_foldl_max_of_mem {x : ℚ} :
    ∀ {l : List ℚ}, x ∈ l → ∀ a : ℚ, x ≤ l.foldl max a := by
  intro l
  induction l with
  | nil => intro h; simp at h
  | cons y ys ih =>
    intro h a
    rcases List.mem_cons.mp h with h1 | h1
    · subst h1
      exact le_trans (le_max_right a x) (le_foldl_max_self _ ys)
    · exact ih h1 (max a y)

theorem foldl_max_mem (a : ℚ) : ∀ l : List ℚ, l.foldl max a = a ∨ l.foldl max a ∈ l := by
  intro l
  induction l generalizing a with
  | nil => exact Or.inl rfl
  | cons x xs ih =>
    have hfold : (x :: xs).foldl max a = xs.foldl max (max a x) := rfl
    rcases ih (max a x) with h | h
    · rcases max_choice a x with h1 | h1
      · exact Or.inl (by rw [hfold, h, h1])
      · exact Or.inr (List.mem_cons.mpr (Or.inl (by rw [hfold, h, h1])))
    · exact Or.inr (List.mem_cons_of_mem x (by rw [hfold]; exact h))

theorem maxQ?_le {l : List ℚ} {m x : ℚ} (h : maxQ? l = some m) (hx : x ∈ l) : x ≤ m := by
  cases l with
  | nil => simp at hx
  | cons y ys =>
    simp [maxQ?] at h
    subst h
    rcases List.mem_cons.mp hx with h1 | h1
    · subst h1; exact le_foldl_max_self x ys
    · exact le_foldl_max_of_mem h1 y

theorem maxQ?_mem {l : List ℚ} {m : ℚ} (h : maxQ? l = some m) : m ∈ l := by
  cases l with
  | nil => simp [maxQ?] at h
  | cons y ys =>
    simp [maxQ?] at h
    subst h
    rcases foldl_max_mem y ys with h1 | h1
    · rw [h1]; exact List.mem_cons_self y ys
    · exact List.mem_cons_of_mem y h1

theorem maxQ?_eq_none {l : List ℚ} : maxQ? l = none ↔ l = [] := by
  cases l <;> simp [maxQ?]

theorem maxQ?_of_ne_nil {l : List ℚ} (h : l ≠ []) : ∃ m, maxQ? l = some m := by
  cases l with
  | nil => exact absurd rfl h
  | cons y ys => exact ⟨ys.foldl max y, rfl⟩

theorem qmaxD_mem : ∀ {l : List ℚ}, l ≠ [] → qmaxD l ∈ l := by
  intro l h
  cases l with
  | nil => exact absurd rfl h
  | cons y ys =>
    show ys.foldl max y ∈ y :: ys
    rcases foldl_max_mem y ys with h1 | h1
    · rw [h1]; exact List.mem_cons_self y ys
    · exact List.mem_cons_of_mem y h1

theorem le_qmaxD {l : List ℚ} {x : ℚ} (hx : x ∈ l) : x ≤ qmaxD l := by
  cases l with
  | nil => simp at hx
  | cons y ys =>
    show x ≤ ys.foldl max y
    rcases List.mem_cons.mp hx with h1 | h1
    · subst h1; exact le_foldl_max_self x ys
    · exact le_foldl_max_of_mem h1 y

theorem mem_dedup_first [DecidableEq α] {a : α} :
    ∀ {l : List α}, a ∈ dedup_first l ↔ a ∈ l := by
  intro l
  induction l with
  | nil => simp [dedup_first]
  | cons x xs ih =>
    unfold dedup_first
    by_cases hax : a = x
    · subst hax; simp
    · simp only [List.mem_cons, List.mem_filter, decide_eq_true_eq]
      constructor
      · rintro (h | ⟨h, -⟩)
        · exact Or.inl h
        · exact Or.inr (ih.mp h)
      · rintro (h | h)
        · exact Or.inl h
        · exact Or.inr ⟨ih.mpr h, hax⟩

theorem nodup_dedup_first [DecidableEq α] : ∀ l : List α, (dedup_first l).Nodup := by
  intro l
  induction l with
  | nil => simp [dedup_first]
  | cons x xs ih =>
    unfold dedup_first
    refine List.Nodup.cons ?_ (List.Nodup.filter _ ih)
    intro hx
    have := (List.mem_filter.mp hx).2
    simp at this

theorem nodup_filter_eq_singleton [DecidableEq α] :
    ∀ {l : List α}, l.Nodup → ∀ {k : α}, k ∈ l →
      l.filter (fun y => decide (y = k)) = [k] := by
  intro l
  induction l with
  | nil => intro _ k hk; simp at hk
  | cons x xs ih =>
    intro hn k hk
    have hx : x ∉ xs := (List.nodup_cons.mp hn).1
    rcases List.mem_cons.mp hk with h1 | h1
    · rw [h1]
      rw [List.filter_cons_of_pos (by simp)]
      have hnil : xs.filter (fun y => decide (y = x)) = [] := by
        rw [List.filter_eq_nil_iff]
        intro b hb
        simp only [decide_eq_true_eq]
        intro hbx
        exact hx (hbx ▸ hb)
      rw [hnil]
    · have hxk : ¬(x = k) := by
        intro h
        exact hx (h ▸ h1)
      rw [List.filter_cons_of_neg (by simp [hxk])]
      exact ih (List.nodup_cons.mp hn).2 h1

instance : IsTotal ErrorRow errGE := by
  constructor
  intro a b
  unfold errGE
  rcases lt_trichotomy a.last_occurred b.last_occurred with h | h | h
  · exact Or.inr (Or.inl h)
  · rcases le_total b.error_count a.error_count with h1 | h1
    · exact Or.inl (Or.inr ⟨h, h1⟩)
    · exact Or.inr (Or.inr ⟨h.symm, h1⟩)
  · exact Or.inl (Or.inl h)

instance : IsTrans ErrorRow errGE := by
  constructor
  intro a b c hab hbc
  unfold errGE at hab hbc ⊢
  rcases hab with h1 | ⟨h1, h2⟩
  · rcases hbc with h3 | ⟨h3, h4⟩
    · exact Or.inl (lt_trans h3 h1)
    · exact Or.inl (h3 ▸ h1)
  · rcases hbc with h3 | ⟨h3, h4⟩
    · exact Or.inl (h1 ▸ h3)
    · exact Or.inr ⟨h1.trans h3, le_trans h4 h2⟩

instance : IsTotal MirrorLog durLE := by
  constructor
  intro a b
  unfold durLE
  match a.duration, b.duration with
  | some x, some y => exact le_total x y
  | some _, none => exact Or.inl trivial
  | none, some _ => exact Or.inr trivial
  | none, none => exact Or.inl trivial

instance : IsTrans MirrorLog durLE := by
  constructor
  intro a b c hab hbc
  unfold durLE at hab hbc ⊢
  match ha : a.duration, hb : b.duration, hc : c.duration with
  | some x, some y, some z =>
    rw [ha, hb] at hab; rw [hb, hc] at hbc
    exact le_trans hab hbc
  | some _, some _, none => exact trivial
  | some _, none, some _ => rw [hb, hc] at hbc; exact absurd hbc id
  | some _, none, none => exact trivial
  | none, some _, some _ => rw [ha, hb] at hab; exact absurd hab id
  | none, some _, none => exact trivial
  | none, none, some _ => rw [hb, hc] at hbc; exact absurd hbc id
  | none, none, none => exact trivial

theorem durLE_refl (a : MirrorLog) : durLE a a := by
  unfold durLE
  match a.duration with
  | some x => exact le_refl x
  | none => exact trivial

/-- What a successful `annotate_url` call guarantees about its result. -/
theorem annotate_url_ok {cc sc : Nat} {da ds dl : Option ℚ} {cp : ℚ}
    {d' s' : Option ℚ}
    (h : annotate_url cc sc da ds dl = .ok (cp, d', s')) :
    cc ≠ 0 ∧ cp = (sc : ℚ) / (cc : ℚ) ∧
    ((dl = none ∧ d' = none ∧ s' = none) ∨
     (∃ d avg sd, dl = some d ∧ da = some avg ∧ ds = some sd ∧
        d' = some d ∧ s' = some (score_formula (pyTimedeltaHours d) avg sd cp))) := by
  unfold annotate_url at h
  by_cases hcc : cc = 0
  · rw [if_pos hcc] at h; simp at h
  · rw [if_neg hcc] at h
    cases hdl : dl with
    | none =>
      rw [hdl] at h
      simp at h
      obtain ⟨h1, h2, h3⟩ := h
      exact ⟨hcc, h1.symm, Or.inl ⟨rfl, h2.symm, h3.symm⟩⟩
    | some d =>
      rw [hdl] at h
      cases hda : da with
      | none => rw [hda] at h; simp at h
      | some avg =>
        cases hds : ds with
        | none => rw [hda, hds] at h; simp at h
        | some sd =>
          rw [hda, hds] at h
          simp at h
          obtain ⟨h1, h2, h3⟩ := h
          rw [h1] at h3
          exact ⟨hcc, h1.symm,
            Or.inr ⟨d, avg, sd, rfl, rfl, rfl, h2.symm, h3.symm⟩⟩

/-- What a successful `annotate_stats` call guarantees about its result. -/
theorem annotate_stats_ok {db : DB} {ct : ℚ} {mid : Option Nat} {s : UrlStats}
    {a : AnnotatedUrl} (h : annotate_stats db ct mid s = .ok a) :
    a.toUrlStats = s ∧
    annotate_url s.check_count s.success_count s.duration_avg s.duration_stddev
      (url_delays db ct mid s.url.id) = .ok (a.completion_pct, a.delay, a.score) := by
  unfold annotate_stats at h
  cases hres : annotate_url s.check_count s.success_count s.duration_avg
      s.duration_stddev (url_delays db ct mid s.url.id) with
  | error e => rw [hres] at h; simp at h
  | ok trip =>
    rw [hres] at h
    obtain ⟨cp, dl, sc⟩ := trip
    simp at h
    subst h
    exact ⟨rfl, rfl⟩

/-- Every URL record of a successful `get_mirror_statuses` report comes from
annotating the aggregate attributes of a member of `valid_urls`. -/
theorem mem_statuses_urls {vendor : String} {sdAgg : List ℚ → Option ℚ} {db : DB}
    {now cutoff : ℚ} {mid : Option Nat} {r : StatusReport} {a : AnnotatedUrl}
    (hok : get_mirror_statuses vendor sdAgg db now cutoff mid = .ok r)
    (ha : a ∈ r.urls) :
    ∃ u ∈ valid_urls db (now - cutoff) mid,
      annotate_stats db (now - cutoff) mid
        (url_stats vendor sdAgg db (now - cutoff) u) = .ok a := by
  unfold get_mirror_statuses at hok
  cases h1 : summary_triple db (now - cutoff) mid
      (stats_of vendor sdAgg db (now - cutoff) mid) with
  | error e => rw [h1] at hok; simp at hok
  | ok trip =>
    rw [h1] at hok
    obtain ⟨lc, nc, freq⟩ := trip
    cases h2 : mapExcept (annotate_stats db (now - cutoff) mid)
        (stats_of vendor sdAgg db (now - cutoff) mid) with
    | error e => rw [h2] at hok; simp at hok
    | ok annots =>
      rw [h2] at hok
      simp at hok
      subst hok
      obtain ⟨s, hs, hsa⟩ := mapExcept_ok_mem h2 a ha
      obtain ⟨u, hu, rfl⟩ := List.mem_map.mp hs
      exact ⟨u, (List.mem_insertionSort urlLE).mp hu, hsa⟩

/-- `success_count` never exceeds `check_count`. -/
theorem url_stats_success_le_check (vendor : String) (sdAgg : List ℚ → Option ℚ)
    (db : DB) (ct : ℚ) (u : MirrorUrl) :
    (url_stats vendor sdAgg db ct u).success_count ≤
      (url_stats vendor sdAgg db ct u).check_count := by
  unfold url_stats
  exact List.length_filterMap_le _ _

/-- A present `duration_avg` means at least one timed log, i.e. a positive
`success_count`. -/
theorem url_stats_davg_some (vendor : String) (sdAgg : List ℚ → Option ℚ)
    (db : DB) (ct : ℚ) (u : MirrorUrl) {avg : ℚ}
    (h : (url_stats vendor sdAgg db ct u).duration_avg = some avg) :
    0 < (url_stats vendor sdAgg db ct u).success_count := by
  unfold url_stats at h ⊢
  simp only at h ⊢
  by_cases he : ((window_logs_of db ct u).filterMap fun l => l.duration).isEmpty
  · rw [if_pos he] at h; simp at h
  · rw [List.isEmpty_iff] at he
    exact List.length_pos.mpr he

/-! ### Claim C1 -/

/-- Claim C1: every URL in the output of `get_mirror_statuses` that has a
delay sample has `score = (delay in hours + duration_avg + duration_stddev)
/ divisor`, where the divisor is `completion_pct` when that is positive and
the fixed constant `0.005 = 1/200` otherwise (`completion_pct` is never
negative, so the fallback branch is exactly `completion_pct = 0`); the
divisor is strictly positive, hence never zero. -/
theorem c1_score_divisor {vendor : String} {sdAgg : List ℚ → Option ℚ} {db : DB}
    {now cutoff : ℚ} {mid : Option Nat} {r : StatusReport} {a : AnnotatedUrl} {d : ℚ}
    (hok : get_mirror_statuses vendor sdAgg db now cutoff mid = .ok r)
    (ha : a ∈ r.urls) (hd : a.delay = some d) :
    ∃ avg sd, a.duration_avg = some avg ∧ a.duration_stddev = some sd ∧
      0 ≤ a.completion_pct ∧
      0 < (if 0 < a.completion_pct then a.completion_pct else 1 / 200) ∧
      a.score = some ((pyTimedeltaHours d + avg + sd) /
        (if 0 < a.completion_pct then a.completion_pct else 1 / 200)) := by
  obtain ⟨u, hu, hann⟩ := mem_statuses_urls hok ha
  obtain ⟨hts, hurl⟩ := annotate_stats_ok hann
  obtain ⟨hcc, hcp, hcase⟩ := annotate_url_ok hurl
  rcases hcase with ⟨h1, h2, h3⟩ | ⟨d0, avg, sd0, h1, h2, h3, h4, h5⟩
  · rw [hd] at h2; simp at h2
  · rw [hd] at h4
    have hdd : d0 = d := (Option.some.inj h4).symm
    subst hdd
    have hda : a.duration_avg = some avg := by
      have hh : a.toUrlStats.duration_avg = some avg := by rw [hts]; exact h2
      exact hh
    have hds : a.duration_stddev = some sd0 := by
      have hh : a.toUrlStats.duration_stddev = some sd0 := by rw [hts]; exact h3
      exact hh
    have hnn : 0 ≤ a.completion_pct := by rw [hcp]; positivity
    refine ⟨avg, sd0, hda, hds, hnn, ?_, ?_⟩
    · by_cases hpos : 0 < a.completion_pct
      · rw [if_pos hpos]; exact hpos
      · rw [if_neg hpos]; norm_num
    · rw [h5]; rfl

/-- Concrete store for the C1 witness: one URL with one successful, timed,
synced log inside the window. -/
def c1db : DB := ⟨[⟨1, true, true, false, 1⟩], [⟨1, "http", true⟩], [⟨1, "u", 1, 1, ""⟩],
  [⟨1, 1, 1, some 1, some 2, true, ""⟩]⟩

/-- The annotated URL `get_mirror_statuses` produces on `c1db`. -/
def c1a : AnnotatedUrl :=
  ⟨⟨⟨1, "u", 1, 1, ""⟩, 1, 1, some 1, some 1, some 2, some 0⟩, 1, some 0, some 2⟩

/-- The report `get_mirror_statuses` produces on `c1db`. -/
def c1rep : StatusReport := ⟨2, some 1, 1, none, [c1a]⟩

/-- Witness for C1 at the concrete store `c1db`. -/
theorem c1_score_divisor_witness :
    get_mirror_statuses "sqlite" (fun _ => none) c1db 2 2 none = .ok c1rep ∧
    c1a ∈ c1rep.urls ∧ c1a.delay = some 0 ∧
    (∃ avg sd, c1a.duration_avg = some avg ∧ c1a.duration_stddev = some sd ∧
      0 ≤ c1a.completion_pct ∧
      0 < (if 0 < c1a.completion_pct then c1a.completion_pct else 1 / 200) ∧
      c1a.score = some ((pyTimedeltaHours 0 + avg + sd) /
        (if 0 < c1a.completion_pct then c1a.completion_pct else 1 / 200))) := by
  have h1 : get_mirror_statuses "sqlite" (fun _ => none) c1db 2 2 none = .ok c1rep := by
    norm_num [get_mirror_statuses, summary_triple, stats_of, status_urls, valid_urls,
      mirror_ok, url_stats, window_logs_of, check_info_logs, annotate_stats, annotate_url,
      url_delays, delay_logs, score_formula, pyTimedeltaHours, Rat.floor, mapExcept,
      maxQ?, minQ?, pyTruthy, List.insertionSort, List.orderedInsert, urlLE,
      List.filter, List.filterMap, c1db, c1a, c1rep]
  have h2 : c1a ∈ c1rep.urls := by simp [c1rep]
  have h3 : c1a.delay = some 0 := rfl
  exact ⟨h1, h2, h3, c1_score_divisor h1 h2 h3⟩

/-! ### Claim C2 -/

/-- Claim C2 (amended): every URL returned by `get_mirror_statuses` carries
the aggregate attributes of a member of `valid_urls`, has `check_count > 0`,
and `completion_pct = success_count / check_count` exactly; the value lies in
the closed interval `[0, 1]` — it is `0` (not excluded, as the original
claim's half-open interval `(0, 1]` asserts) when no log of the window has a
non-null duration. -/
theorem c2_completion_pct {vendor : String} {sdAgg : List ℚ → Option ℚ} {db : DB}
    {now cutoff : ℚ} {mid : Option Nat} {r : StatusReport} {a : AnnotatedUrl}
    (hok : get_mirror_statuses vendor sdAgg db now cutoff mid = .ok r)
    (ha : a ∈ r.urls) :
    (∃ u ∈ valid_urls db (now - cutoff) mid,
        a.toUrlStats = url_stats vendor sdAgg db (now - cutoff) u) ∧
    0 < a.check_count ∧
    a.completion_pct = (a.success_count : ℚ) / (a.check_count : ℚ) ∧
    0 ≤ a.completion_pct ∧ a.completion_pct ≤ 1 := by
  obtain ⟨u, hu, hann⟩ := mem_statuses_urls hok ha
  obtain ⟨hts, hurl⟩ := annotate_stats_ok hann
  obtain ⟨hcc, hcp, -⟩ := annotate_url_ok hurl
  have h1 : a.check_count = (url_stats vendor sdAgg db (now - cutoff) u).check_count :=
    congrArg UrlStats.check_count hts
  have h2 : a.success_count = (url_stats vendor sdAgg db (now - cutoff) u).success_count :=
    congrArg UrlStats.success_count hts
  have hccpos : 0 < a.check_count := by
    rw [h1]; exact Nat.pos_of_ne_zero hcc
  have hratio : a.completion_pct = (a.success_count : ℚ) / (a.check_count : ℚ) := by
    rw [h1, h2, hcp]
  refine ⟨⟨u, hu, hts⟩, hccpos, hratio, ?_, ?_⟩
  · rw [hratio]; positivity
  · rw [hratio]
    have hpos : (0 : ℚ) < (a.check_count : ℚ) := by exact_mod_cast hccpos
    rw [div_le_one hpos]
    have hle : a.success_count ≤ a.check_count := by
      rw [h1, h2]; exact url_stats_success_le_check vendor sdAgg db (now - cutoff) u
    exact_mod_cast hle

/-- Concrete store refuting the original C2: one URL whose only window log
has a null duration. -/
def c2db : DB := ⟨[⟨1, true, true, false, 1⟩], [⟨1, "http", true⟩], [⟨1, "u", 1, 1, ""⟩],
  [⟨1, 1, 1, none, none, false, "e"⟩]⟩

/-- The annotated URL `get_mirror_statuses` produces on `c2db`. -/
def c2a : AnnotatedUrl :=
  ⟨⟨⟨1, "u", 1, 1, ""⟩, 1, 0, none, some 1, none, some 0⟩, 0, none, none⟩

/-- The report `get_mirror_statuses` produces on `c2db`. -/
def c2rep : StatusReport := ⟨2, some 1, 1, none, [c2a]⟩

/-- Counterexample to C2 as stated: on `c2db` the returned URL has
`check_count = 1 > 0` but `completion_pct = 0`, which is not in the half-open
interval `(0, 1]`. -/
theorem c2_counterexample :
    get_mirror_statuses "sqlite" (fun _ => none) c2db 2 2 none = .ok c2rep ∧
    c2a ∈ c2rep.urls ∧ c2a.check_count = 1 ∧ c2a.completion_pct = 0 ∧
    ¬ 0 < c2a.completion_pct := by
  refine ⟨?_, by simp [c2rep], rfl, rfl, by norm_num [c2a]⟩
  norm_num [get_mirror_statuses, summary_triple, stats_of, status_urls, valid_urls,
    mirror_ok, url_stats, window_logs_of, check_info_logs, annotate_stats, annotate_url,
    url_delays, delay_logs, score_formula, pyTimedeltaHours, Rat.floor, mapExcept,
    maxQ?, minQ?, pyTruthy, List.insertionSort, List.orderedInsert, urlLE,
    List.filter, List.filterMap, c2db, c2a, c2rep]

/-- Witness for the amended C2 at the concrete store `c2db`. -/
theorem c2_completion_pct_witness :
    get_mirror_statuses "sqlite" (fun _ => none) c2db 2 2 none = .ok c2rep ∧
    c2a ∈ c2rep.urls ∧
    ((∃ u ∈ valid_urls c2db (2 - 2) none,
        c2a.toUrlStats = url_stats "sqlite" (fun _ => none) c2db (2 - 2) u) ∧
     0 < c2a.check_count ∧
     c2a.completion_pct = (c2a.success_count : ℚ) / (c2a.check_count : ℚ) ∧
     0 ≤ c2a.completion_pct ∧ c2a.completion_pct ≤ 1) := by
  have h1 : get_mirror_statuses "sqlite" (fun _ => none) c2db 2 2 none = .ok c2rep := by
    norm_num [get_mirror_statuses, summary_triple, stats_of, status_urls, valid_urls,
      mirror_ok, url_stats, window_logs_of, check_info_logs, annotate_stats, annotate_url,
      url_delays, delay_logs, score_formula, pyTimedeltaHours, Rat.floor, mapExcept,
      maxQ?, minQ?, pyTruthy, List.insertionSort, List.orderedInsert, urlLE,
      List.filter, List.filterMap, c2db, c2a, c2rep]
  have h2 : c2a ∈ c2rep.urls := by simp [c2rep]
  exact ⟨h1, h2, c2_completion_pct h1 h2⟩

/-! ### Claim C3 -/

/-- Claim C3 (amended): for every URL returned by `get_mirror_statuses`,
`score` is null iff no delay sample exists; when a delay sample exists,
`completion_pct` is strictly positive (a zero `completion_pct` together with
a delay sample makes the function raise instead of returning) and
`score = score_formula (hours, duration_avg, duration_stddev, completion_pct)`.
The score is *not* always positive — it is `0` when the numerator is `0`
(see `c3_counterexample`) — but for any fixed strictly positive numerator the
formula strictly decreases as `completion_pct` increases over positive
values. -/
theorem c3_score_null_iff_monotone {vendor : String} {sdAgg : List ℚ → Option ℚ}
    {db : DB} {now cutoff : ℚ} {mid : Option Nat} {r : StatusReport} {a : AnnotatedUrl}
    (hok : get_mirror_statuses vendor sdAgg db now cutoff mid = .ok r)
    (ha : a ∈ r.urls) :
    (a.score = none ↔ a.delay = none) ∧
    (∀ d : ℚ, a.delay = some d → 0 < a.completion_pct ∧
      ∃ avg sd, a.duration_avg = some avg ∧ a.duration_stddev = some sd ∧
        a.score = some (score_formula (pyTimedeltaHours d) avg sd a.completion_pct)) ∧
    (∀ h v w p q : ℚ, 0 < h + v + w → 0 < p → p < q →
      score_formula h v w q < score_formula h v w p) := by
  obtain ⟨u, hu, hann⟩ := mem_statuses_urls hok ha
  obtain ⟨hts, hurl⟩ := annotate_stats_ok hann
  obtain ⟨hcc, hcp, hcase⟩ := annotate_url_ok hurl
  have hmono : ∀ h v w p q : ℚ, 0 < h + v + w → 0 < p → p < q →
      score_formula h v w q < score_formula h v w p := by
    intro h v w p q hn hp hpq
    unfold score_formula
    rw [if_pos hp, if_pos (lt_trans hp hpq)]
    exact div_lt_div_of_pos_left hn hp hpq
  rcases hcase with ⟨h1, h2, h3⟩ | ⟨d0, avg, sd0, h1, h2, h3, h4, h5⟩
  · refine ⟨by rw [h2, h3], ?_, hmono⟩
    intro d hd
    rw [hd] at h2
    simp at h2
  · refine ⟨by rw [h4, h5]; simp, ?_, hmono⟩
    intro d hd
    rw [hd] at h4
    have hdd : d0 = d := (Option.some.inj h4).symm
    subst hdd
    have hda : a.duration_avg = some avg := by
      have hh : a.toUrlStats.duration_avg = some avg := by rw [hts]; exact h2
      exact hh
    have hds : a.duration_stddev = some sd0 := by
      have hh : a.toUrlStats.duration_stddev = some sd0 := by rw [hts]; exact h3
      exact hh
    have hscpos : 0 < (url_stats vendor sdAgg db (now - cutoff) u).success_count :=
      url_stats_davg_some vendor sdAgg db (now - cutoff) u h2
    have hcppos : 0 < a.completion_pct := by
      rw [hcp]
      apply div_pos
      · exact_mod_cast hscpos
      · exact_mod_cast Nat.pos_of_ne_zero hcc
    exact ⟨hcppos, avg, sd0, hda, hds, h5⟩

/-- Concrete store refuting the "score > 0" part of C3: one URL with a
delay sample of zero and a single zero-duration success log. -/
def c3db : DB := ⟨[⟨1, true, true, false, 1⟩], [⟨1, "http", true⟩], [⟨1, "u", 1, 1, ""⟩],
  [⟨1, 1, 1, some 1, some 0, true, ""⟩]⟩

/-- The annotated URL `get_mirror_statuses` produces on `c3db`. -/
def c3a : AnnotatedUrl :=
  ⟨⟨⟨1, "u", 1, 1, ""⟩, 1, 1, some 1, some 1, some 0, some 0⟩, 1, some 0, some 0⟩

/-- The report `get_mirror_statuses` produces on `c3db`. -/
def c3rep : StatusReport := ⟨2, some 1, 1, none, [c3a]⟩

/-- Counterexample to C3 as stated: on `c3db` the returned URL has a delay
sample but its score is `0`, not strictly positive. -/
theorem c3_counterexample :
    get_mirror_statuses "sqlite" (fun _ => none) c3db 2 2 none = .ok c3rep ∧
    c3a ∈ c3rep.urls ∧ c3a.delay = some 0 ∧ c3a.score = some 0 ∧
    ¬ (∀ s : ℚ, c3a.score = some s → 0 < s) := by
  refine ⟨?_, by simp [c3rep], rfl, rfl, ?_⟩
  · norm_num [get_mirror_statuses, summary_triple, stats_of, status_urls, valid_urls,
      mirror_ok, url_stats, window_logs_of, check_info_logs, annotate_stats, annotate_url,
      url_delays, delay_logs, score_formula, pyTimedeltaHours, Rat.floor, mapExcept,
      maxQ?, minQ?, pyTruthy, List.insertionSort, List.orderedInsert, urlLE,
      List.filter, List.filterMap, c3db, c3a, c3rep]
  · intro hall
    have := hall 0 rfl
    exact absurd this (by norm_num)

/-- Witness for the amended C3 at the concrete store `c3db`. -/
theorem c3_score_null_iff_monotone_witness :
    get_mirror_statuses "sqlite" (fun _ => none) c3db 2 2 none = .ok c3rep ∧
    c3a ∈ c3rep.urls ∧
    ((c3a.score = none ↔ c3a.delay = none) ∧
     (∀ d : ℚ, c3a.delay = some d → 0 < c3a.completion_pct ∧
       ∃ avg sd, c3a.duration_avg = some avg ∧ c3a.duration_stddev = some sd ∧
         c3a.score = some (score_formula (pyTimedeltaHours d) avg sd c3a.completion_pct)) ∧
     (∀ h v w p q : ℚ, 0 < h + v + w → 0 < p → p < q →
       score_formula h v w q < score_formula h v w p)) := by
  have h1 : get_mirror_statuses "sqlite" (fun _ => none) c3db 2 2 none = .ok c3rep := by
    norm_num [get_mirror_statuses, summary_triple, stats_of, status_urls, valid_urls,
      mirror_ok, url_stats, window_logs_of, check_info_logs, annotate_stats, annotate_url,
      url_delays, delay_logs, score_formula, pyTimedeltaHours, Rat.floor, mapExcept,
      maxQ?, minQ?, pyTruthy, List.insertionSort, List.orderedInsert, urlLE,
      List.filter, List.filterMap, c3db, c3a, c3rep]
  have h2 : c3a ∈ c3rep.urls := by simp [c3rep]
  exact ⟨h1, h2, c3_score_null_iff_monotone h1 h2⟩

/-! ### Claim C7 -/

/-- The optional mirror filter of the `url_delays` SQL, as a proposition:
the log's URL row exists and belongs to the given mirror. -/
def delay_mirror_filter (db : DB) (mid : Option Nat) (l : MirrorLog) : Prop :=
  match mid with
  | none => True
  | some m => ∃ u ∈ db.urls, u.id = l.url_id ∧ u.mirror_id = m

/-- Claim C7 (amended): the per-URL delay is the mean of
`check_time - last_sync` over exactly the logs in the window that are
successful and have a non-null `last_sync` — with *no* requirement that the
log be timed (non-null duration), contrary to the original claim — grouped
by URL and optionally mirror-filtered; the delay is null exactly when that
set is empty. -/
theorem c7_url_delays_amended (db : DB) (ct : ℚ) (mid : Option Nat) (uid : Nat) :
    (delay_logs db ct mid uid = [] → url_delays db ct mid uid = none) ∧
    (delay_logs db ct mid uid ≠ [] →
      url_delays db ct mid uid = some
        (((delay_logs db ct mid uid).map fun l => l.check_time - l.last_sync.getD 0).sum /
          ((delay_logs db ct mid uid).length : ℚ))) ∧
    (∀ l : MirrorLog, l ∈ delay_logs db ct mid uid ↔
      l ∈ db.logs ∧ l.is_success = true ∧ ct ≤ l.check_time ∧
      l.last_sync.isSome = true ∧ l.url_id = uid ∧ delay_mirror_filter db mid l) := by
  refine ⟨?_, ?_, ?_⟩
  · intro h
    unfold url_delays
    rw [h]
    rfl
  · intro h
    unfold url_delays
    rw [if_neg (by simpa [List.isEmpty_iff] using h)]
  · intro l
    cases mid with
    | none =>
      simp [delay_logs, delay_mirror_filter, List.mem_filter, Bool.and_eq_true,
        decide_eq_true_eq, beq_iff_eq]
      tauto
    | some m =>
      simp [delay_logs, delay_mirror_filter, List.mem_filter, Bool.and_eq_true,
        decide_eq_true_eq, beq_iff_eq, List.any_eq_true]
      tauto

/-- Concrete store refuting the original C7: one successful, synced window
log whose duration is null. -/
def c7db : DB := ⟨[], [], [], [⟨1, 1, 10, some 0, none, true, ""⟩]⟩

/-- Counterexample to C7 as stated: on `c7db` there is no successful, timed,
synced window log at all (so the mean the claim describes ranges over the
empty set and the claimed delay is null), yet the code averages the untimed
success log and yields `some 10`. -/
theorem c7_counterexample :
    url_delays c7db 0 none 1 = some 10 ∧
    (c7db.logs.filter fun l => l.is_success && l.duration.isSome &&
      l.last_sync.isSome && decide ((0 : ℚ) ≤ l.check_time) && (l.url_id == 1)) = [] := by
  constructor
  · norm_num [url_delays, delay_logs, c7db, List.filter]
  · norm_num [c7db, List.filter]

/-- Witness for the amended C7 at the concrete store `c7db`. -/
theorem c7_url_delays_amended_witness :
    delay_logs c7db 0 none 1 ≠ [] ∧
    url_delays c7db 0 none 1 = some
      (((delay_logs c7db 0 none 1).map fun l => l.check_time - l.last_sync.getD 0).sum /
        ((delay_logs c7db 0 none 1).length : ℚ)) :=
  ⟨by norm_num [delay_logs, c7db, List.filter],
   (c7_url_delays_amended c7db 0 none 1).2.1
     (by norm_num [delay_logs, c7db, List.filter])⟩

/-! ### Claim C9 -/

/-- Claim C9 (amended): a call to `get_mirror_errors` with a truthy
(non-null, non-zero) `mirror_id` raises `UnboundLocalError` (a subclass of
`NameError`) from the unbound local `urls`; the per-mirror filtering the
parameter suggests is never applied — in particular the falsy value `0`
skips the branch and behaves exactly like `None`. -/
theorem c9_unbound_local (db : DB) (now cutoff : ℚ) (m : Nat) (hm : m ≠ 0) :
    get_mirror_errors db now cutoff (some m) = .error .nameError ∧
    get_mirror_errors db now cutoff (some 0) = get_mirror_errors db now cutoff none := by
  constructor
  · unfold get_mirror_errors
    rw [if_pos (by simp [pyTruthy, hm])]
  · rfl

/-- Empty concrete store for the C9 counterexample. -/
def c9db : DB := ⟨[], [], [], []⟩

/-- Counterexample to C9 as stated: the call with the non-null (but falsy)
`mirror_id = some 0` returns normally instead of raising. -/
theorem c9_counterexample :
    get_mirror_errors c9db 10 10 (some 0) = .ok [] ∧ some 0 ≠ (none : Option Nat) := by
  constructor
  · norm_num [get_mirror_errors, err_entries, dedup_first, pyTruthy, c9db,
      List.insertionSort, List.filterMap]
  · simp

/-- Witness for the amended C9 at the concrete store `c9db`. -/
theorem c9_unbound_local_witness :
    (1 ≠ 0) ∧
    (get_mirror_errors c9db 10 10 (some 1) = .error .nameError ∧
     get_mirror_errors c9db 10 10 (some 0) = get_mirror_errors c9db 10 10 none) :=
  ⟨by norm_num, c9_unbound_local c9db 10 10 1 (by norm_num)⟩

/-! ### Claim C10 -/

/-- Claim C10: when the cutoff window contains at least one log but every
such log has a null `last_sync`, `get_mirror_url_for_download` raises
`TypeError` (subtracting `timedelta(minutes=20)` from `None`) instead of
returning a URL or reaching the fallback. -/
theorem c10_sync_none_typeerror (db : DB) (now cutoff : ℚ)
    (h1 : window_logs db (now - cutoff) ≠ [])
    (h2 : ∀ l ∈ window_logs db (now - cutoff), l.last_sync = none) :
    get_mirror_url_for_download db now cutoff = .error .typeError := by
  unfold get_mirror_url_for_download
  have hmap : (window_logs db (now - cutoff)).map (fun l => l.check_time) ≠ [] := by
    simpa using h1
  obtain ⟨t, ht⟩ := maxQ?_of_ne_nil hmap
  rw [ht]
  have hfm : (window_logs db (now - cutoff)).filterMap (fun l => l.last_sync) = [] := by
    rw [List.filterMap_eq_nil_iff]
    exact h2
  rw [hfm]
  rfl

/-- Concrete store for the C10 witness: a single window log with null
`last_sync`. -/
def c10db : DB := ⟨[], [], [], [⟨1, 1, 5, none, some 1, true, ""⟩]⟩

/-- Witness for C10 at the concrete store `c10db`. -/
theorem c10_sync_none_typeerror_witness :
    window_logs c10db (10 - 10) ≠ [] ∧
    (∀ l ∈ window_logs c10db (10 - 10), l.last_sync = none) ∧
    get_mirror_url_for_download c10db 10 10 = .error .typeError := by
  have h1 : window_logs c10db (10 - 10) ≠ [] := by
    norm_num [window_logs, c10db, List.filter]
  have h2 : ∀ l ∈ window_logs c10db (10 - 10), l.last_sync = none := by
    intro l hl
    simp [window_logs, c10db, List.filter] at hl
    subst hl
    rfl
  exact ⟨h1, h2, c10_sync_none_typeerror c10db 10 10 h1 h2⟩

/-! ### Claim C5 -/

/-- Claim C5: with no log in the cutoff window, `get_mirror_url_for_download`
returns a default-protocol URL of a public and active mirror with empty
country if one exists, otherwise any default-protocol URL of a public and
active mirror, otherwise null. -/
theorem c5_no_status_fallback (db : DB) (now cutoff : ℚ)
    (h : window_logs db (now - cutoff) = []) :
    ((dl_candidate_urls db).filter (fun u => u.country == "") ≠ [] →
       ∃ u ∈ dl_candidate_urls db, u.country = "" ∧
         get_mirror_url_for_download db now cutoff = .ok (some u)) ∧
    ((dl_candidate_urls db).filter (fun u => u.country == "") = [] →
       dl_candidate_urls db ≠ [] →
       ∃ u ∈ dl_candidate_urls db,
         get_mirror_url_for_download db now cutoff = .ok (some u)) ∧
    (dl_candidate_urls db = [] →
       get_mirror_url_for_download db now cutoff = .ok none) := by
  have hget : get_mirror_url_for_download db now cutoff = dl_fallback db := by
    unfold get_mirror_url_for_download
    rw [h]
    rfl
  rw [hget]
  refine ⟨?_, ?_, ?_⟩
  · intro hne
    cases hc : (dl_candidate_urls db).filter (fun u => u.country == "") with
    | nil => exact absurd hc hne
    | cons u us =>
      have hu : u ∈ (dl_candidate_urls db).filter (fun v => v.country == "") := by
        rw [hc]; exact List.mem_cons_self u us
      have hu' := List.mem_filter.mp hu
      refine ⟨u, hu'.1, by simpa using hu'.2, ?_⟩
      unfold dl_fallback
      rw [hc]
  · intro hc hne
    cases hd : dl_candidate_urls db with
    | nil => exact absurd hd hne
    | cons u us =>
      refine ⟨u, List.mem_cons_self u us, ?_⟩
      unfold dl_fallback
      rw [hc, hd]
  · intro hd
    unfold dl_fallback
    have hc : (dl_candidate_urls db).filter (fun u => u.country == "") = [] := by
      rw [hd]; rfl
    rw [hc, hd]

/-- Concrete store for the C5 witness: one country-agnostic default-protocol
URL of a public, active mirror and no logs at all. -/
def c5db : DB := ⟨[⟨1, true, true, false, 1⟩], [⟨1, "http", true⟩], [⟨1, "u", 1, 1, ""⟩], []⟩

/-- Witness for C5 at the concrete store `c5db`. -/
theorem c5_no_status_fallback_witness :
    window_logs c5db (10 - 10) = [] ∧
    (dl_candidate_urls c5db).filter (fun u => u.country == "") ≠ [] ∧
    (∃ u ∈ dl_candidate_urls c5db, u.country = "" ∧
       get_mirror_url_for_download c5db 10 10 = .ok (some u)) := by
  have h : window_logs c5db (10 - 10) = [] := by
    norm_num [window_logs, c5db, List.filter]
  have hne : (dl_candidate_urls c5db).filter (fun u => u.country == "") ≠ [] := by
    norm_num [dl_candidate_urls, mirror_ok, c5db, List.filter, List.any]
  exact ⟨h, hne, (c5_no_status_fallback c5db 10 10 h).1 hne⟩

/-! ### Claim C6 -/

/-- Check counts of the annotated URLs agree with those of the underlying
aggregate records. -/
theorem map_check_count_of_mapExcept {db : DB} {ct : ℚ} {mid : Option Nat}
    {stats : List UrlStats} {annots : List AnnotatedUrl}
    (h : mapExcept (annotate_stats db ct mid) stats = .ok annots) :
    annots.map (fun a => a.check_count) = stats.map (fun s => s.check_count) := by
  have hf := mapExcept_ok_forall₂ h
  clear h
  induction hf with
  | nil => rfl
  | cons hxy htl ih =>
    obtain ⟨hts, -⟩ := annotate_stats_ok hxy
    simp only [List.map_cons, ih]
    rw [congrArg UrlStats.check_count hts]

/-- What a successful `summary_triple` guarantees: `num_checks` is the
largest per-URL check count, and `check_frequency` is null for at most one
check and `(max - min) / (num_checks - 1)` over the `check_info` rows
otherwise. -/
theorem summary_triple_ok {db : DB} {ct : ℚ} {mid : Option Nat}
    {stats : List UrlStats} {lc : Option ℚ} {nc : Nat} {freq : Option ℚ}
    (h : summary_triple db ct mid stats = .ok (lc, nc, freq)) :
    nc = (stats.map fun s => s.check_count).foldr max 0 ∧
    (nc ≤ 1 → freq = none) ∧
    (1 < nc → ∃ mx mn,
      maxQ? ((check_info_logs db ct mid).map fun l => l.check_time) = some mx ∧
      minQ? ((check_info_logs db ct mid).map fun l => l.check_time) = some mn ∧
      freq = some ((mx - mn) / ((nc : ℚ) - 1))) := by
  unfold summary_triple at h
  by_cases hemp : stats.isEmpty
  · rw [if_pos hemp] at h
    simp at h
    obtain ⟨-, hnc, hfreq⟩ := h
    have hstats : stats = [] := List.isEmpty_iff.mp hemp
    subst hstats
    refine ⟨by rw [← hnc]; rfl, fun _ => hfreq.symm, ?_⟩
    intro hlt
    rw [← hnc] at hlt
    exact absurd hlt (by norm_num)
  · rw [if_neg hemp] at h
    by_cases hlt : 1 < (stats.map fun s => s.check_count).foldr max 0
    · rw [if_pos hlt] at h
      cases hmx : maxQ? ((check_info_logs db ct mid).map fun l => l.check_time) with
      | none => rw [hmx] at h; simp at h
      | some mx =>
        cases hmn : minQ? ((check_info_logs db ct mid).map fun l => l.check_time) with
        | none => rw [hmx, hmn] at h; simp at h
        | some mn =>
          rw [hmx, hmn] at h
          simp at h
          obtain ⟨-, hnc, hfreq⟩ := h
          subst hnc
          refine ⟨rfl, ?_, ?_⟩
          · intro hle
            exact absurd hlt (by omega)
          · intro _
            exact ⟨mx, mn, rfl, rfl, hfreq.symm⟩
    · rw [if_neg hlt] at h
      simp at h
      obtain ⟨-, hnc, hfreq⟩ := h
      subst hnc
      exact ⟨rfl, fun _ => hfreq.symm, fun hl => absurd hl hlt⟩

/-- Claim C6: in a successful `get_mirror_statuses` report, `num_checks` is
the largest per-URL `check_count` among the returned URLs, `check_frequency`
is null when `num_checks ≤ 1`, and otherwise equals
`(max check_time - min check_time) / (num_checks - 1)` over all logs of the
window (mirror-filtered when a truthy mirror id is given). -/
theorem c6_check_frequency {vendor : String} {sdAgg : List ℚ → Option ℚ} {db : DB}
    {now cutoff : ℚ} {mid : Option Nat} {r : StatusReport}
    (hok : get_mirror_statuses vendor sdAgg db now cutoff mid = .ok r) :
    r.num_checks = (r.urls.map fun a => a.check_count).foldr max 0 ∧
    (r.num_checks ≤ 1 → r.check_frequency = none) ∧
    (1 < r.num_checks → ∃ mx mn,
      maxQ? ((check_info_logs db (now - cutoff) mid).map fun l => l.check_time) = some mx ∧
      minQ? ((check_info_logs db (now - cutoff) mid).map fun l => l.check_time) = some mn ∧
      r.check_frequency = some ((mx - mn) / ((r.num_checks : ℚ) - 1))) := by
  unfold get_mirror_statuses at hok
  cases h1 : summary_triple db (now - cutoff) mid
      (stats_of vendor sdAgg db (now - cutoff) mid) with
  | error e => rw [h1] at hok; simp at hok
  | ok trip =>
    rw [h1] at hok
    obtain ⟨lc, nc, freq⟩ := trip
    cases h2 : mapExcept (annotate_stats db (now - cutoff) mid)
        (stats_of vendor sdAgg db (now - cutoff) mid) with
    | error e => rw [h2] at hok; simp at hok
    | ok annots =>
      rw [h2] at hok
      simp at hok
      subst hok
      obtain ⟨hnc, hle, hgt⟩ := summary_triple_ok h1
      have hmap := map_check_count_of_mapExcept h2
      exact ⟨by rw [hmap]; exact hnc, hle, hgt⟩

/-- Concrete store for the C6 witness: one URL with two window checks. -/
def c6db : DB := ⟨[⟨1, true, true, false, 1⟩], [⟨1, "http", true⟩], [⟨1, "u", 1, 1, ""⟩],
  [⟨1, 1, 1, none, none, false, "e"⟩, ⟨2, 1, 3, none, none, false, "e"⟩]⟩

/-- The annotated URL `get_mirror_statuses` produces on `c6db`. -/
def c6a : AnnotatedUrl :=
  ⟨⟨⟨1, "u", 1, 1, ""⟩, 2, 0, none, some 3, none, some 0⟩, 0, none, none⟩

/-- The report `get_mirror_statuses` produces on `c6db`: two checks spread
two seconds apart give `check_frequency = 2`. -/
def c6rep : StatusReport := ⟨4, some 3, 2, some 2, [c6a]⟩

/-- Witness for C6 at the concrete store `c6db`. -/
theorem c6_check_frequency_witness :
    get_mirror_statuses "sqlite" (fun _ => none) c6db 4 4 none = .ok c6rep ∧
    (c6rep.num_checks = (c6rep.urls.map fun a => a.check_count).foldr max 0 ∧
     (c6rep.num_checks ≤ 1 → c6rep.check_frequency = none) ∧
     (1 < c6rep.num_checks → ∃ mx mn,
       maxQ? ((check_info_logs c6db (4 - 4) none).map fun l => l.check_time) = some mx ∧
       minQ? ((check_info_logs c6db (4 - 4) none).map fun l => l.check_time) = some mn ∧
       c6rep.check_frequency = some ((mx - mn) / ((c6rep.num_checks : ℚ) - 1)))) := by
  have h1 : get_mirror_statuses "sqlite" (fun _ => none) c6db 4 4 none = .ok c6rep := by
    norm_num [get_mirror_statuses, summary_triple, stats_of, status_urls, valid_urls,
      mirror_ok, url_stats, window_logs_of, check_info_logs, annotate_stats, annotate_url,
      url_delays, delay_logs, score_formula, pyTimedeltaHours, Rat.floor, mapExcept,
      maxQ?, minQ?, pyTruthy, List.insertionSort, List.orderedInsert, urlLE,
      List.filter, List.filterMap, c6db, c6a, c6rep]
  exact ⟨h1, c6_check_frequency h1⟩

/-! ### Claim C4 -/

/-- Claim C4 (amended): whenever the cutoff window is nonempty, the maximum
`last_sync` exists, and at least one log qualifies for the best-log query —
successful, `check_time ≥ T - 5min`, non-null `last_sync ≥ S - 20min`, URL of
a public active mirror on the default protocol, where `T`/`S` are the window
maxima — `get_mirror_url_for_download` returns the URL of a minimum-duration
qualifying log.  Such a log automatically satisfies `check_time ≤ T`, so it
lies in the claimed five-minute freshness band; a log outside the freshness
filters is never selected because only members of the filtered list are
candidates. -/
theorem c4_best_log_selection (db : DB) (now cutoff t s : ℚ)
    (ht : maxQ? ((window_logs db (now - cutoff)).map fun l => l.check_time) = some t)
    (hs : maxQ? ((window_logs db (now - cutoff)).filterMap fun l => l.last_sync) = some s)
    (hq : db.logs.filter (dl_qualifies db (t - 300) (s - 1200)) ≠ []) :
    ∃ l ∈ db.logs.filter (dl_qualifies db (t - 300) (s - 1200)),
      (∀ l2 ∈ db.logs.filter (dl_qualifies db (t - 300) (s - 1200)), durLE l l2) ∧
      t - 300 ≤ l.check_time ∧ l.check_time ≤ t ∧
      (∃ ls, l.last_sync = some ls ∧ s - 1200 ≤ ls) ∧
      ∃ u, u.id = l.url_id ∧
        get_mirror_url_for_download db now cutoff = .ok (some u) := by
  obtain ⟨b, rest, hsort⟩ :
      ∃ b rest, List.insertionSort durLE
        (db.logs.filter (dl_qualifies db (t - 300) (s - 1200))) = b :: rest := by
    cases hsort : List.insertionSort durLE
        (db.logs.filter (dl_qualifies db (t - 300) (s - 1200))) with
    | nil =>
      exfalso
      have hperm := List.perm_insertionSort durLE
        (db.logs.filter (dl_qualifies db (t - 300) (s - 1200)))
      rw [hsort] at hperm
      exact hq (List.perm_nil.mp hperm.symm)
    | cons b rest => exact ⟨b, rest, rfl⟩
  have hsorted := List.sorted_insertionSort durLE
    (db.logs.filter (dl_qualifies db (t - 300) (s - 1200)))
  rw [hsort] at hsorted
  have hbmem : b ∈ db.logs.filter (dl_qualifies db (t - 300) (s - 1200)) := by
    have hb : b ∈ b :: rest := List.mem_cons_self b rest
    rw [← hsort] at hb
    exact (List.mem_insertionSort durLE).mp hb
  have hmin : ∀ l2 ∈ db.logs.filter (dl_qualifies db (t - 300) (s - 1200)), durLE b l2 := by
    intro l2 hl2
    have hl2' : l2 ∈ b :: rest := by
      rw [← hsort]
      exact (List.mem_insertionSort durLE).mpr hl2
    rcases List.mem_cons.mp hl2' with h | h
    · rw [h]; exact durLE_refl b
    · exact List.rel_of_sorted_cons hsorted l2 h
  have hbq : dl_qualifies db (t - 300) (s - 1200) b = true := (List.mem_filter.mp hbmem).2
  unfold dl_qualifies at hbq
  rw [Bool.and_eq_true, Bool.and_eq_true, Bool.and_eq_true] at hbq
  obtain ⟨⟨⟨hsucc, hct1⟩, hls⟩, hpad⟩ := hbq
  have hct1' : t - 300 ≤ b.check_time := of_decide_eq_true hct1
  obtain ⟨ls, hls0, hlsb⟩ : ∃ ls, b.last_sync = some ls ∧ s - 1200 ≤ ls := by
    cases hls0 : b.last_sync with
    | none => rw [hls0] at hls; simp at hls
    | some ls =>
      rw [hls0] at hls
      exact ⟨ls, rfl, by simpa using hls⟩
  have hle_t : b.check_time ≤ t := by
    by_cases hin : now - cutoff ≤ b.check_time
    · refine maxQ?_le ht ?_
      refine List.mem_map_of_mem _ ?_
      exact List.mem_filter.mpr ⟨(List.mem_filter.mp hbmem).1, by simpa using hin⟩
    · have hct_t : now - cutoff ≤ t := by
        obtain ⟨l0, hl0, hl0t⟩ := List.mem_map.mp (maxQ?_mem ht)
        have hl0w := (List.mem_filter.mp hl0).2
        rw [← hl0t]
        simpa using hl0w
      exact le_of_lt (lt_of_lt_of_le (lt_of_not_le hin) hct_t)
  obtain ⟨u, hfind⟩ : ∃ u, db.urls.find? (fun u => u.id == b.url_id) = some u := by
    unfold pub_active_default at hpad
    rcases List.any_eq_true.mp hpad with ⟨u0, hu0, hprop⟩
    rw [Bool.and_eq_true, Bool.and_eq_true] at hprop
    exact Option.isSome_iff_exists.mp
      (List.find?_isSome.mpr ⟨u0, hu0, hprop.1.1⟩)
  have huid : u.id = b.url_id := by
    have hp := List.find?_some hfind
    simpa using hp
  refine ⟨b, hbmem, hmin, hct1', hle_t, ⟨ls, hls0, hlsb⟩, u, huid, ?_⟩
  unfold get_mirror_url_for_download
  simp only [ht, hs, hsort, hfind]

/-- Concrete store refuting C4 as stated: one failed log inside the window
and nothing else. -/
def c4db : DB := ⟨[], [], [], [⟨1, 1, 5, some 5, some 1, false, "e"⟩]⟩

/-- Counterexample to C4 as stated: the window contains a log, but no
successful log exists at all, so the claimed minimum-duration successful log
does not exist; instead of returning its URL the function falls through to
the no-status fallback and returns null. -/
theorem c4_counterexample :
    window_logs c4db (10 - 10) ≠ [] ∧
    (c4db.logs.filter fun l => l.is_success) = [] ∧
    get_mirror_url_for_download c4db 10 10 = .ok none := by
  refine ⟨by norm_num [window_logs, c4db, List.filter], by norm_num [c4db, List.filter], ?_⟩
  norm_num [get_mirror_url_for_download, window_logs, maxQ?, dl_qualifies, dl_fallback,
    dl_candidate_urls, pub_active_default, mirror_ok, c4db, List.filter, List.filterMap,
    List.insertionSort, List.orderedInsert, durLE]

/-- Concrete store for the C4 witness: a fresh 5-second success log on `u1`
and a stale (outside the five-minute band) 1-second success log on `u2`. -/
def c4wdb : DB := ⟨[⟨1, true, true, false, 1⟩], [⟨1, "http", true⟩],
  [⟨1, "u1", 1, 1, ""⟩, ⟨2, "u2", 1, 1, ""⟩],
  [⟨1, 1, 1000, some 1000, some 5, true, ""⟩, ⟨2, 2, 10, some 900, some 1, true, ""⟩]⟩

/-- Witness for the amended C4 at the concrete store `c4wdb`: the stale
1-second log is not selected even though its duration is smaller. -/
theorem c4_best_log_selection_witness :
    maxQ? ((window_logs c4wdb (1000 - 1000)).map fun l => l.check_time) = some 1000 ∧
    maxQ? ((window_logs c4wdb (1000 - 1000)).filterMap fun l => l.last_sync) = some 1000 ∧
    c4wdb.logs.filter (dl_qualifies c4wdb (1000 - 300) (1000 - 1200)) ≠ [] ∧
    (∃ l ∈ c4wdb.logs.filter (dl_qualifies c4wdb (1000 - 300) (1000 - 1200)),
      (∀ l2 ∈ c4wdb.logs.filter (dl_qualifies c4wdb (1000 - 300) (1000 - 1200)), durLE l l2) ∧
      1000 - 300 ≤ l.check_time ∧ l.check_time ≤ 1000 ∧
      (∃ ls, l.last_sync = some ls ∧ 1000 - 1200 ≤ ls) ∧
      ∃ u, u.id = l.url_id ∧
        get_mirror_url_for_download c4wdb 1000 1000 = .ok (some u)) := by
  have ht : maxQ? ((window_logs c4wdb (1000 - 1000)).map fun l => l.check_time) = some 1000 := by
    norm_num [window_logs, maxQ?, c4wdb, List.filter, List.map, List.foldl, max_def]
  have hs : maxQ? ((window_logs c4wdb (1000 - 1000)).filterMap fun l => l.last_sync) = some 1000 := by
    norm_num [window_logs, maxQ?, c4wdb, List.filter, List.filterMap, List.foldl, max_def]
  have hq : c4wdb.logs.filter (dl_qualifies c4wdb (1000 - 300) (1000 - 1200)) ≠ [] := by
    norm_num [dl_qualifies, pub_active_default, mirror_ok, c4wdb, List.filter, List.any]
  exact ⟨ht, hs, hq, c4_best_log_selection c4wdb 1000 1000 1000 1000 ht hs hq⟩

/-! ### Claim C8 -/

/-- Claim C8: in a successful `get_mirror_errors` result, all failed-check
window logs of active public mirrors sharing one grouping key
`(url, country, protocol, tier, error)` collapse into exactly one row whose
`error_count` is the number of such logs and whose `last_occurred` is the
latest of their check times, and the rows are sorted by most recent
`last_occurred` first, then by largest `error_count`. -/
theorem c8_error_aggregation {db : DB} {now cutoff : ℚ} {rows : List ErrorRow}
    (hok : get_mirror_errors db now cutoff none = .ok rows) :
    List.Sorted errGE rows ∧
    ∀ k : ErrKey, ∀ grp : List (ErrKey × ℚ),
      grp = (err_entries db (now - cutoff)).filter (fun e => decide (e.1 = k)) →
      grp ≠ [] →
      rows.filter (fun row => decide (rowKey row = k)) = [mkErrRow k grp] ∧
      (mkErrRow k grp).error_count = grp.length ∧
      (mkErrRow k grp).last_occurred ∈ grp.map (fun e => e.2) ∧
      ∀ tt ∈ grp.map (fun e => e.2), tt ≤ (mkErrRow k grp).last_occurred := by
  unfold get_mirror_errors at hok
  rw [if_neg (by simp [pyTruthy])] at hok
  simp only [Except.ok.injEq] at hok
  subst hok
  constructor
  · exact List.sorted_insertionSort errGE _
  · intro k grp hgrp hne
    have hkmem : k ∈ dedup_first ((err_entries db (now - cutoff)).map fun e => e.1) := by
      rw [mem_dedup_first]
      cases hg : (err_entries db (now - cutoff)).filter (fun e => decide (e.1 = k)) with
      | nil => rw [hgrp, hg] at hne; exact absurd rfl hne
      | cons e es =>
        have he : e ∈ (err_entries db (now - cutoff)).filter (fun x => decide (x.1 = k)) := by
          rw [hg]; exact List.mem_cons_self e es
        have he' := List.mem_filter.mp he
        have hek : e.1 = k := of_decide_eq_true he'.2
        rw [← hek]
        exact List.mem_map_of_mem _ he'.1
    have hperm : (List.insertionSort errGE
        ((dedup_first ((err_entries db (now - cutoff)).map fun e => e.1)).map fun k' =>
          mkErrRow k' ((err_entries db (now - cutoff)).filter fun e => decide (e.1 = k')))).filter
            (fun row => decide (rowKey row = k)) =
        [mkErrRow k grp] := by
      have h1 := (List.perm_insertionSort errGE
        ((dedup_first ((err_entries db (now - cutoff)).map fun e => e.1)).map fun k' =>
          mkErrRow k' ((err_entries db (now - cutoff)).filter fun e =>
            decide (e.1 = k')))).filter (fun row => decide (rowKey row = k))
      have h2 : ((dedup_first ((err_entries db (now - cutoff)).map fun e => e.1)).map fun k' =>
          mkErrRow k' ((err_entries db (now - cutoff)).filter fun e =>
            decide (e.1 = k'))).filter (fun row => decide (rowKey row = k)) =
          [mkErrRow k grp] := by
        rw [List.filter_map]
        have h3 : ((dedup_first ((err_entries db (now - cutoff)).map fun e => e.1)).filter
            ((fun row => decide (rowKey row = k)) ∘ fun k' =>
              mkErrRow k' ((err_entries db (now - cutoff)).filter fun e =>
                decide (e.1 = k')))) =
            ((dedup_first ((err_entries db (now - cutoff)).map fun e => e.1)).filter
              (fun k' => decide (k' = k))) := rfl
        rw [h3, nodup_filter_eq_singleton (nodup_dedup_first _) hkmem]
        rw [List.map_cons, List.map_nil, hgrp]
      exact List.perm_singleton.mp (h2 ▸ h1)
    refine ⟨hperm, rfl, ?_, ?_⟩
    · unfold mkErrRow
      apply qmaxD_mem
      intro hmap
      exact hne (List.map_eq_nil_iff.mp hmap)
    · intro tt htt
      exact le_qmaxD htt

/-- Concrete store for the C8 witness: two failed window checks on the same
URL with the same error message. -/
def c8db : DB := ⟨[⟨1, true, true, false, 1⟩], [⟨1, "http", true⟩], [⟨1, "u", 1, 1, ""⟩],
  [⟨1, 1, 1, none, none, false, "boom"⟩, ⟨2, 1, 3, none, none, false, "boom"⟩]⟩

/-- The single aggregated row `get_mirror_errors` produces on `c8db`. -/
def c8row : ErrorRow := ⟨"u", "", "http", 1, "boom", 2, 3⟩

/-- The shared grouping key of the two failures in `c8db`. -/
def c8key : ErrKey := ⟨"u", "", "http", 1, "boom"⟩

/-- The two grouped `(key, check_time)` entries of `c8db`. -/
def c8grp : List (ErrKey × ℚ) := [(c8key, 1), (c8key, 3)]

/-- Witness for C8 at the concrete store `c8db`: the two failures collapse
into one row with `error_count = 2` and `last_occurred = 3`. -/
theorem c8_error_aggregation_witness :
    get_mirror_errors c8db 4 4 none = .ok [c8row] ∧
    c8grp = (err_entries c8db (4 - 4)).filter (fun e => decide (e.1 = c8key)) ∧
    c8grp ≠ [] ∧
    (List.Sorted errGE [c8row] ∧
     ([c8row].filter (fun row => decide (rowKey row = c8key)) = [mkErrRow c8key c8grp] ∧
      (mkErrRow c8key c8grp).error_count = c8grp.length ∧
      (mkErrRow c8key c8grp).last_occurred ∈ c8grp.map (fun e => e.2) ∧
      ∀ tt ∈ c8grp.map (fun e => e.2), tt ≤ (mkErrRow c8key c8grp).last_occurred)) := by
  have hok : get_mirror_errors c8db 4 4 none = .ok [c8row] := by
    norm_num [get_mirror_errors, err_entries, logKey?, mirror_ok, dedup_first, mkErrRow,
      qmaxD, pyTruthy, rowKey, c8db, c8row, c8key, List.insertionSort, List.orderedInsert,
      List.filterMap, List.filter, List.map, List.foldl, max_def, List.find?, Option.bind]
  have hgrp : c8grp = (err_entries c8db (4 - 4)).filter (fun e => decide (e.1 = c8key)) := by
    norm_num [err_entries, logKey?, mirror_ok, c8db, c8key, c8grp,
      List.filterMap, List.filter, List.find?, Option.bind]
  have hne : c8grp ≠ [] := by simp [c8grp]
  have h := c8_error_aggregation hok
  exact ⟨hok, hgrp, hne, h.1, h.2 c8key c8grp hgrp hne⟩
